import Mathlib

/-!
# Product lookup with a cache-aside layer (`db.go`, `api-go.go`)

A shallow embedding of the product store (`db.go`) and of the HTTP handler
(`api-go.go`).  The two backends (PostgreSQL through pgx, Redis through
go-redis), the JSON codec and the response writer are outside the repository;
they appear here as explicit state (`World`), as a record of injected command
failures (`Faults`) and as a codec parameter (`Json`).  `log.Fatal` ends the
process, which the embedding records as the result `Res.exit`.
-/

namespace ProductApi

/-! ## Values -/

/-- Go `error` values the program distinguishes: the sentinel `pgx.ErrNoRows`
(tested with `errors.Is` in the handler) and every other error. -/
inductive GoError where
  | ErrNoRows
  | other (msg : String)
  deriving DecidableEq, Repr

/-- Go `float64`, given by its 64-bit IEEE-754 pattern. -/
structure Float64 where
  bits : Nat
  deriving DecidableEq, Repr

/-- Exponent field all ones: the value is a NaN or an infinity. -/
def Float64.isNaNOrInf (f : Float64) : Bool :=
  (f.bits / 2 ^ 52) % 2 ^ 11 == 2047

/-- The `Product` struct of `db.go`. -/
structure Product where
  ID : Int
  Name : String
  Description : String
  Price : Float64
  deriving DecidableEq, Repr

/-- The zero value `Product{}`. -/
def Product.zero : Product := ⟨0, "", "", ⟨0⟩⟩

/-- The functions `json.Marshal` and `json.Unmarshal` at type `Product`. -/
structure Json where
  Marshal : Product → Except GoError String
  Unmarshal : String → Except GoError Product

/-! ## Formatting and parsing of integers -/

/-- The character of a decimal digit. -/
def digitChar (d : Nat) : Char := Char.ofNat (48 + d)

/-- Decimal digits of `n`, most significant first (`fuel` bounds the recursion). -/
def fmtNat : Nat → Nat → List Char
  | 0, _ => []
  | fuel + 1, n =>
    if n < 10 then [digitChar n] else fmtNat fuel (n / 10) ++ [digitChar (n % 10)]

/-- The verb `%v` of `fmt.Sprintf` at an `int`: decimal, with `-` for negatives. -/
def fmtInt : Int → String
  | Int.ofNat n => String.mk (fmtNat (n + 1) n)
  | Int.negSucc n => String.mk ('-' :: fmtNat (n + 2) (n + 1))

/-- The constant `cacheKey = "cache_products:%v"` applied with `fmt.Sprintf`. -/
def cacheKey (id : Int) : String := "cache_products:" ++ fmtInt id

/-- Value of one decimal digit character, if it is one. -/
def digitVal (c : Char) : Option Nat :=
  if 48 ≤ c.toNat ∧ c.toNat ≤ 57 then some (c.toNat - 48) else none

/-- Value of a run of decimal digits read left to right from `acc`. -/
def parseDigits : List Char → Nat → Option Nat
  | [], acc => some acc
  | c :: cs, acc =>
    match digitVal c with
    | none => none
    | some d => parseDigits cs (10 * acc + d)

/-- The function `strconv.Atoi` for a 64-bit `int`: an optional sign, then at
least one decimal digit and nothing else, the value within the range of `int`.
`none` stands for a non-nil error. -/
def Atoi (s : String) : Option Int :=
  let body (neg : Bool) (ds : List Char) : Option Int :=
    match ds with
    | [] => none
    | _ :: _ =>
      match parseDigits ds 0 with
      | none => none
      | some v =>
        if neg then (if v ≤ 2 ^ 63 then some (-(v : Int)) else none)
        else (if v < 2 ^ 63 then some (v : Int) else none)
  match s.data with
  | '-' :: ds => body true ds
  | '+' :: ds => body false ds
  | ds => body false ds

/-! ## The Redis backend -/

/-- One Redis hash: its fields and, when set, the instant it expires. -/
structure HashEntry where
  fields : List (String × String)
  expireAt : Option Nat
  deriving DecidableEq, Repr

/-- The Redis database: a clock (nanoseconds) and the stored keys; the first
binding of a key in `keys` is the current one. -/
structure Redis where
  now : Nat
  keys : List (String × HashEntry)
  deriving DecidableEq, Repr

/-- Modelled from the spec: the expiry rule of the cache backend, which is not
part of the repository.  An entry with a time-to-live is considered absent once
the time-to-live has elapsed, that is from the instant `expireAt` on. -/
def HashEntry.liveAt (e : HashEntry) (now : Nat) : Bool :=
  match e.expireAt with
  | none => true
  | some t => decide (now < t)

/-- The entry under `key`, unless there is none or it has expired. -/
def Redis.live (r : Redis) (key : String) : Option HashEntry :=
  match r.keys.lookup key with
  | none => none
  | some e => if e.liveAt r.now then some e else none

/-- Redis `HEXISTS key field`. -/
def Redis.hexists (r : Redis) (key field : String) : Bool :=
  match r.live key with
  | none => false
  | some e => (e.fields.lookup field).isSome

/-- Redis `HGET key field`; `none` is the nil reply. -/
def Redis.hget (r : Redis) (key field : String) : Option String :=
  match r.live key with
  | none => none
  | some e => e.fields.lookup field

/-- Redis `HSET key field value`: a missing (or expired) key is created without
an expiry, an existing one keeps its expiry. -/
def Redis.hset (r : Redis) (key field value : String) : Redis :=
  match r.live key with
  | none => { r with keys := (key, ⟨[(field, value)], none⟩) :: r.keys }
  | some e => { r with keys := (key, { e with fields := (field, value) :: e.fields }) :: r.keys }

/-- Redis `EXPIRE key ttl`: an existing key expires `ttl` after now. -/
def Redis.expire (r : Redis) (key : String) (ttl : Nat) : Redis :=
  match r.live key with
  | none => r
  | some e => { r with keys := (key, { e with expireAt := some (r.now + ttl) }) :: r.keys }

/-- The duration `5*time.Minute`, in nanoseconds. -/
def fiveMinutes : Nat := 5 * (60 * 1000000000)

/-! ## The PostgreSQL backend -/

/-- The connection `pgConn`: the rows of `products` as this connection sees
them, the rows to restore on rollback while a transaction is open, and the next
value of the `id` sequence. -/
structure Postgres where
  rows : List Product
  tx : Option (List Product)
  nextID : Int
  deriving DecidableEq, Repr

/-- Rows after `INSERT INTO products (name, description, price)`. -/
def Postgres.insert (pg : Postgres) (p : Product) : Postgres :=
  { pg with rows := pg.rows ++ [{ p with ID := pg.nextID }], nextID := pg.nextID + 1 }

/-- Rows after `UPDATE products SET ... WHERE id = $4`. -/
def Postgres.update (pg : Postgres) (p : Product) : Postgres :=
  { pg with rows := pg.rows.map fun r => if r.ID = p.ID then p else r }

/-- Result of `SELECT ... FROM products WHERE id = $1`, first row. -/
def Postgres.selectByID (pg : Postgres) (id : Int) : Option Product :=
  pg.rows.find? fun r => r.ID == id

/-! ## The world a call runs in -/

/-- Commands that fail for a reason outside the data (connection, protocol,
backend refusing the command), with the error each returns. -/
structure Faults where
  pgConnect : Option GoError := none
  txBegin : Option GoError := none
  txExec : Option GoError := none
  txRollback : Option GoError := none
  queryRow : Option GoError := none
  hExists : Option GoError := none
  hGet : Option GoError := none
  hSet : Option GoError := none
  expire : Option GoError := none
  respWrite : Option GoError := none
  deriving DecidableEq, Repr

/-- Calls that leave the process, in the order they are made. -/
inductive Call where
  | HExists (key field : String)
  | HGet (key field : String)
  | HSet (key field value : String)
  | Expire (key : String) (ttl : Nat)
  | QueryRow (id : Int)
  | Begin
  | Exec (sql : String)
  | Rollback
  | Connect
  | Println (line : String)
  deriving DecidableEq, Repr

/-- State of the two backends, the injected failures and the calls made. -/
structure World where
  pg : Postgres
  rdb : Redis
  faults : Faults
  calls : List Call
  deriving DecidableEq, Repr

/-- Append one call to the record. -/
def World.record (w : World) (c : Call) : World :=
  { w with calls := w.calls ++ [c] }

/-- How a function of `db.go` ends: it returns a value, or `log.Fatal` ends the
process with the error it logs. -/
inductive Res (α : Type) where
  | ret (a : α) (w : World)
  | exit (e : GoError) (w : World)

/-- The world at the end. -/
def Res.world {α : Type} : Res α → World
  | .ret _ w => w
  | .exit _ w => w

/-- The value returned, if the function returned. -/
def Res.value {α : Type} : Res α → Option α
  | .ret a _ => some a
  | .exit _ _ => none

/-- The call `fmt.Println`. -/
def Println (line : String) (w : World) : World := w.record (.Println line)

/-- The call `rdb.HExists(ctx, key, field).Result()`. -/
def HExists (w : World) (key field : String) : Bool × Option GoError × World :=
  let w1 := w.record (.HExists key field)
  match w.faults.hExists with
  | some e => (false, some e, w1)
  | none => (w.rdb.hexists key field, none, w1)

/-- The call `rdb.HGet(ctx, key, field).Result()`; a missing field is the
error `redis.Nil`. -/
def HGet (w : World) (key field : String) : String × Option GoError × World :=
  let w1 := w.record (.HGet key field)
  match w.faults.hGet with
  | some e => ("", some e, w1)
  | none =>
    match w.rdb.hget key field with
    | none => ("", some (.other "redis: nil"), w1)
    | some s => (s, none, w1)

/-- The call `rdb.HSet(ctx, key, field, value)`, its result dropped. -/
def HSet (w : World) (key field value : String) : World :=
  let w1 := w.record (.HSet key field value)
  match w.faults.hSet with
  | some _ => w1
  | none => { w1 with rdb := w.rdb.hset key field value }

/-- The call `rdb.Expire(ctx, key, ttl)`, its result dropped. -/
def Expire (w : World) (key : String) (ttl : Nat) : World :=
  let w1 := w.record (.Expire key ttl)
  match w.faults.expire with
  | some _ => w1
  | none => { w1 with rdb := w.rdb.expire key ttl }

/-- The call `pgConn.QueryRow(ctx, "SELECT ... WHERE id = $1", id).Scan(...)`
into a fresh `product`: the row found, or `pgx.ErrNoRows`. -/
def QueryRowScan (w : World) (id : Int) : Product × Option GoError × World :=
  let w1 := w.record (.QueryRow id)
  match w.faults.queryRow with
  | some e => (Product.zero, some e, w1)
  | none =>
    match w.pg.selectByID id with
    | none => (Product.zero, some .ErrNoRows, w1)
    | some p => (p, none, w1)

/-- The call `pgConn.Begin(ctx)`. -/
def Begin (w : World) : Option GoError × World :=
  let w1 := w.record .Begin
  match w.faults.txBegin with
  | some e => (some e, w1)
  | none => (none, { w1 with pg := ⟨w.pg.rows, some w.pg.rows, w.pg.nextID⟩ })

/-- The call `transaction.Exec(ctx, sql, ...)` with the effect `run` of the
statement on the rows. -/
def Exec (w : World) (sql : String) (run : Postgres → Postgres) : Option GoError × World :=
  let w1 := w.record (.Exec sql)
  match w.faults.txExec with
  | some e => (some e, w1)
  | none => (none, { w1 with pg := run w.pg })

/-- The call `transaction.Rollback(ctx)`. -/
def Rollback (w : World) : Option GoError × World :=
  let w1 := w.record .Rollback
  match w.faults.txRollback with
  | some e => (some e, w1)
  | none =>
    match w.pg.tx with
    | none => (none, w1)
    | some saved => (none, { w1 with pg := { w.pg with rows := saved, tx := none } })

/-- The call `pgx.Connect(ctx, connString)` of `connectToPostgres`; the flag
tells whether a connection came back. -/
def Connect (w : World) : Bool × Option GoError × World :=
  let w1 := w.record .Connect
  match w.faults.pgConnect with
  | some e => (false, some e, w1)
  | none => (true, none, w1)

/-! ## `db.go` -/

/-- The function `HandleError`: `log.Fatal(err)` when `err` is not nil. -/
def HandleError (err : Option GoError) (w : World) : Res Unit :=
  match err with
  | some e => .exit e w
  | none => .ret () w

/-- The function `NewDB`: the flag is false when the `*DB` returned is nil. -/
def NewDB (w : World) : Bool × Option GoError × World :=
  match Connect w with
  | (_, some e, w) => (false, some e, w)
  | (_, none, w) => (true, none, w)

/-- The method `DB.CreateProduct`. -/
def CreateProduct (w : World) (product : Product) : Res (Option GoError) :=
  match Begin w with
  | (err, w) =>
    match HandleError err w with
    | .exit e w => .exit e w
    | .ret () w =>
      match Exec w "INSERT INTO products (name, description, price) VALUES ($1, $2, $3)"
          (fun pg => pg.insert product) with
      | (some _, w) =>
        match Rollback w with
        | (err, w) => .ret err w
      | (none, w) => .ret none w

/-- The method `DB.UpdateProduct`. -/
def UpdateProduct (w : World) (product : Product) : Res (Option GoError) :=
  match Begin w with
  | (err, w) =>
    match HandleError err w with
    | .exit e w => .exit e w
    | .ret () w =>
      match Exec w "UPDATE products SET name = $1, description = $2, price = $3 WHERE id = $4"
          (fun pg => pg.update product) with
      | (some _, w) =>
        match Rollback w with
        | (err, w) => .ret err w
      | (none, w) => .ret none w

/-- The method `DB.existsInRedis`. -/
def existsInRedis (w : World) (id : Int) : Res (Bool × Option GoError) :=
  let key := cacheKey id
  match HExists w key "data" with
  | (found, err, w) =>
    match HandleError err w with
    | .exit e w => .exit e w
    | .ret () w =>
      if found == false then
        .ret (false, err) (Println "Product not stored in cache" w)
      else
        .ret (found, none) (Println "Product found in cache!" w)

/-- The method `DB.fetchFromRedis`. -/
def fetchFromRedis (j : Json) (w : World) (id : Int) : Res (Product × Option GoError) :=
  let key := cacheKey id
  match HGet w key "data" with
  | (jsonString, err, w) =>
    match HandleError err w with
    | .exit e w => .exit e w
    | .ret () w =>
      match j.Unmarshal jsonString with
      | .error e =>
        match HandleError (some e) w with
        | .exit e w => .exit e w
        | .ret () w => .ret (Product.zero, some e) w
      | .ok product => .ret (product, none) (Println "Fetched from Cache!" w)

/-- The method `DB.saveToCache`. -/
def saveToCache (j : Json) (w : World) (product : Product) : Res Unit :=
  let key := cacheKey product.ID
  match j.Marshal product with
  | .error e => HandleError (some e) w
  | .ok jsonString =>
    match HandleError none w with
    | .exit e w => .exit e w
    | .ret () w =>
      let w := HSet w key "data" jsonString
      let w := Expire w key fiveMinutes
      .ret () (Println "Stored to cache!" w)

/-- The method `DB.GetProductByID`. -/
def GetProductByID (j : Json) (w : World) (id : Int) : Res (Product × Option GoError) :=
  match existsInRedis w id with
  | .exit e w => .exit e w
  | .ret (found, err) w =>
    match HandleError err w with
    | .exit e w => .exit e w
    | .ret () w =>
      if found then fetchFromRedis j w id
      else
        match QueryRowScan w id with
        | (_, some e, w) => .ret (Product.zero, some e) w
        | (product, none, w) =>
          let w := Println "Fetched from Postgresql database!" w
          match saveToCache j w product with
          | .exit e w => .exit e w
          | .ret () w => .ret (product, none) w

/-! ## `api-go.go` -/

/-- Calls on the `http.ResponseWriter`. -/
inductive RespEvent where
  | Error (msg : String) (code : Nat)
  | SetHeader (key value : String)
  | Write (body : String)
  deriving DecidableEq, Repr

/-- How the handler ends, with the calls made on the response writer: it
returns, it panics (the server aborts the request), or `log.Fatal` ends the
process. -/
inductive Served where
  | returned (resp : List RespEvent) (w : World)
  | panicked (resp : List RespEvent) (w : World)
  | exited (e : GoError) (resp : List RespEvent) (w : World)

/-- The calls made on the response writer. -/
def Served.resp : Served → List RespEvent
  | .returned r _ => r
  | .panicked r _ => r
  | .exited _ r _ => r

/-- Status code of the response: the one the first write fixes (`http.Error`
writes the header with its code, a plain `Write` with 200). -/
def statusOf : List RespEvent → Option Nat
  | [] => none
  | .Error _ code :: _ => some code
  | .Write _ :: _ => some 200
  | .SetHeader _ _ :: rest => statusOf rest

/-- Body of the response (`http.Error` writes its message and a newline). -/
def bodyOf : List RespEvent → String
  | [] => ""
  | .Error msg _ :: rest => msg ++ "\n" ++ bodyOf rest
  | .Write b :: rest => b ++ bodyOf rest
  | .SetHeader _ _ :: rest => bodyOf rest

/-- Number of response writes, `http.Error` and `w.Write` alike. -/
def writeCount : List RespEvent → Nat
  | [] => 0
  | .Error _ _ :: rest => writeCount rest + 1
  | .Write _ :: rest => writeCount rest + 1
  | .SetHeader _ _ :: rest => writeCount rest

/-- Whether the handler returned normally. -/
def Served.returnedNormally : Served → Bool
  | .returned _ _ => true
  | _ => false

/-- The slice `r.URL.Path[len("/product/"):]`; the pattern the handler is
registered under makes every path start with `/product/`. -/
def idStr (path : String) : String :=
  String.mk (path.data.drop "/product/".length)

/-- The function `getProductByIDHandler` on the request path. -/
def getProductByIDHandler (j : Json) (w : World) (path : String) : Served :=
  match Atoi (idStr path) with
  | none => .returned [.Error "Invalid product ID" 400] w
  | some id =>
    match NewDB w with
    | (false, _, w) => .panicked [] w
    | (true, _, w) =>
      match GetProductByID j w id with
      | .exit e w => .exited e [] w
      | .ret (_, some err) w =>
        if err = .ErrNoRows then .returned [.Error "Product not found" 404] w
        else .returned [.Error "Failed to retrieve product" 500] w
      | .ret (product, none) w =>
        let (productJSON, resp) : String × List RespEvent :=
          match j.Marshal product with
          | .error _ => ("", [.Error "Failed to serialize product" 500])
          | .ok s => (s, [])
        let resp := resp ++ [.SetHeader "Content-Type" "application/json", .Write productJSON]
        match w.faults.respWrite with
        | some _ => .panicked resp w
        | none => .returned resp w

/-! ## Sample data -/

/-- The record `{id:1, name:"Widget", description:"A widget", price:9.99}`. -/
def widget : Product := ⟨1, "Widget", "A widget", ⟨0x4023FAE147AE147B⟩⟩

/-- The JSON text of `widget`. -/
def widgetJSON : String :=
  "\x7b\"ID\":1,\"Name\":\"Widget\",\"Description\":\"A widget\",\"Price\":9.99\x7d"

/-- A product whose price is a NaN. -/
def nanProduct : Product := ⟨2, "Gauge", "A gauge", ⟨0x7FF8000000000001⟩⟩

/-- A codec for the sample data: like `encoding/json` it refuses a price that
is a NaN or an infinity; it knows the text of `widget` and nothing else. -/
def sampleJson : Json where
  Marshal p :=
    if p.Price.isNaNOrInf then .error (.other "json: unsupported value")
    else if p = widget then .ok widgetJSON
    else .error (.other "json: not in the sample table")
  Unmarshal s :=
    if s = widgetJSON then .ok widget
    else .error (.other "json: not in the sample table")

/-- A store holding `widget` and `nanProduct`, an empty cache at time 0, no
failure injected. -/
def sampleWorld : World :=
  { pg := ⟨[widget, nanProduct], none, 3⟩, rdb := ⟨0, []⟩, faults := {}, calls := [] }

/-- The sample world with the cache entry of `widget` in place, without expiry. -/
def cachedWorld : World :=
  { sampleWorld with rdb := ⟨0, [("cache_products:1", ⟨[("data", widgetJSON)], none⟩)]⟩ }

/-! ## Worlds reached by a call -/

/-- The world once a cache miss has been followed by a successful store query. -/
def missWorld (w : World) (id : Int) : World :=
  { w with calls := w.calls ++
      [.HExists (cacheKey id) "data", .Println "Product not stored in cache",
       .QueryRow id, .Println "Fetched from Postgresql database!"] }

/-- The world once a cache hit has been served. -/
def hitWorld (w : World) (id : Int) : World :=
  { w with calls := w.calls ++
      [.HExists (cacheKey id) "data", .Println "Product found in cache!",
       .HGet (cacheKey id) "data", .Println "Fetched from Cache!"] }

/-- The world once the product text `s` has been written to the cache. -/
def storedWorld (w : World) (id : Int) (s : String) : World :=
  Println "Stored to cache!"
    (Expire (HSet (missWorld w id) (cacheKey id) "data" s) (cacheKey id) fiveMinutes)

/-- The world after time `d` has passed on the cache clock. -/
def World.advance (w : World) (d : Nat) : World :=
  { w with rdb := { w.rdb with now := w.rdb.now + d } }

/-- The sample world with a cache entry for identifier 1 that is not JSON. -/
def corruptCacheWorld : World :=
  { sampleWorld with rdb := ⟨0, [("cache_products:1", ⟨[("data", "not json")], none⟩)]⟩ }

/-- The sample world when the statement of a transaction fails and the
rollback succeeds. -/
def execFailsWorld : World :=
  { sampleWorld with faults := { txExec := some (.other "ERROR: value out of range") } }

/-- The sample world when the statement of a transaction fails and the
rollback fails as well. -/
def rollbackFailsWorld : World :=
  { sampleWorld with faults :=
      { txExec := some (.other "ERROR: value out of range"),
        txRollback := some (.other "conn closed") } }

/-- The sample world when Redis refuses writes (`OOM command not allowed`). -/
def readOnlyCacheWorld : World :=
  { sampleWorld with faults := { hSet := some (.other "OOM command not allowed") } }

/-- The sample world when Redis accepts `HSET` and the `EXPIRE` that follows
fails. -/
def expireFailsWorld : World :=
  { sampleWorld with faults := { expire := some (.other "read tcp: i/o timeout") } }

/-- The sample world when Redis cannot be reached. -/
def cacheDownWorld : World :=
  { sampleWorld with faults := { hExists := some (.other "dial tcp: connection refused") } }

/-! ## Integer formatting is injective -/

theorem digitVal_digitChar (d : Nat) (h : d < 10) : digitVal (digitChar d) = some d := by
  interval_cases d <;> decide

theorem parseDigits_append (l : List Char) (c : Char) (acc : Nat) :
    parseDigits (l ++ [c]) acc =
      (parseDigits l acc).bind fun v => (digitVal c).map fun d => 10 * v + d := by
  induction l generalizing acc with
  | nil => cases h : digitVal c <;> simp [parseDigits, h]
  | cons x xs ih =>
    cases h : digitVal x with
    | none => simp [parseDigits, h]
    | some d => simp [parseDigits, h, ih]

theorem parseDigits_fmtNat (fuel n : Nat) (h : n < fuel) :
    parseDigits (fmtNat fuel n) 0 = some n := by
  induction fuel generalizing n with
  | zero => omega
  | succ fuel ih =>
    unfold fmtNat
    split
    · next hlt => simp [parseDigits, digitVal_digitChar n hlt]
    · next hge =>
      have h1 : n / 10 < fuel := by omega
      have h2 : n % 10 < 10 := Nat.mod_lt _ (by decide)
      rw [parseDigits_append, ih _ h1, digitVal_digitChar _ h2]
      simp
      omega

theorem fmtNat_injective (a b : Nat) (h : fmtNat (a + 1) a = fmtNat (b + 1) b) : a = b := by
  have ha := parseDigits_fmtNat (a + 1) a (by omega)
  have hb := parseDigits_fmtNat (b + 1) b (by omega)
  rw [h, hb] at ha
  exact (Option.some.inj ha).symm

theorem fmtNat_ne_minus (fuel n : Nat) (h : n < fuel) (tl : List Char) :
    fmtNat fuel n ≠ '-' :: tl := by
  intro heq
  have hp := parseDigits_fmtNat fuel n h
  rw [heq] at hp
  have hd : digitVal '-' = none := by decide
  simp [parseDigits, hd] at hp

theorem fmtInt_injective : Function.Injective fmtInt := by
  intro a b h
  have hd := congrArg String.data h
  cases a with
  | ofNat m =>
    cases b with
    | ofNat n =>
      simp only [fmtInt] at hd
      rw [fmtNat_injective m n hd]
    | negSucc n =>
      simp only [fmtInt] at hd
      exact absurd hd (fmtNat_ne_minus (m + 1) m (by omega) _)
  | negSucc m =>
    cases b with
    | ofNat n =>
      simp only [fmtInt] at hd
      exact absurd hd.symm (fmtNat_ne_minus (n + 1) n (by omega) _)
    | negSucc n =>
      simp only [fmtInt, List.cons.injEq, true_and] at hd
      have := fmtNat_injective (m + 1) (n + 1) hd
      have hmn : m = n := by omega
      rw [hmn]

theorem cacheKey_injective : Function.Injective cacheKey := by
  intro a b h
  apply fmtInt_injective
  unfold cacheKey at h
  have hd := congrArg String.data h
  simp only [String.data_append] at hd
  exact String.ext (List.append_cancel_left hd)

/-! ## The Redis model -/

theorem live_cons_self (now : Nat) (k : String) (e : HashEntry) (keys : List (String × HashEntry)) :
    (⟨now, (k, e) :: keys⟩ : Redis).live k = if e.liveAt now then some e else none := by
  simp [Redis.live, List.lookup]

theorem live_cons_other (now : Nat) (k k2 : String) (e : HashEntry)
    (keys : List (String × HashEntry)) (h : k2 ≠ k) :
    (⟨now, (k, e) :: keys⟩ : Redis).live k2 = (⟨now, keys⟩ : Redis).live k2 := by
  have hb : (k2 == k) = false := by simpa using h
  simp [Redis.live, List.lookup, hb]

theorem liveAt_of_live (r : Redis) (k : String) (e : HashEntry) (h : r.live k = some e) :
    e.liveAt r.now = true := by
  unfold Redis.live at h
  cases hl : r.keys.lookup k with
  | none => simp [hl] at h
  | some e2 =>
    simp only [hl] at h
    by_cases hlive : e2.liveAt r.now = true
    · simp only [hlive, if_true, Option.some.injEq] at h
      rw [← h]; exact hlive
    · simp [hlive] at h

theorem hset_now (r : Redis) (k f v : String) : (r.hset k f v).now = r.now := by
  unfold Redis.hset; cases r.live k <;> rfl

theorem expire_now (r : Redis) (k : String) (ttl : Nat) : (r.expire k ttl).now = r.now := by
  unfold Redis.expire; cases r.live k <;> rfl

theorem hget_hset (r : Redis) (k f v : String) : (r.hset k f v).hget k f = some v := by
  unfold Redis.hset
  cases hl : r.live k with
  | none => simp [Redis.hget, live_cons_self, HashEntry.liveAt, List.lookup]
  | some e =>
    have hlive := liveAt_of_live r k e hl
    have hlive2 : HashEntry.liveAt { fields := (f, v) :: e.fields, expireAt := e.expireAt } r.now
        = true := hlive
    simp [Redis.hget, live_cons_self, hlive2, List.lookup]

theorem live_hset_other (r : Redis) (k k2 f v : String) (h : k2 ≠ k) :
    (r.hset k f v).live k2 = r.live k2 := by
  unfold Redis.hset
  cases r.live k <;> exact live_cons_other _ _ _ _ _ h

theorem live_expire_other (r : Redis) (k k2 : String) (ttl : Nat) (h : k2 ≠ k) :
    (r.expire k ttl).live k2 = r.live k2 := by
  unfold Redis.expire
  cases r.live k with
  | none => rfl
  | some e => exact live_cons_other _ _ _ _ _ h

/-- After `EXPIRE`, an entry that was there is bound with the new expiry. -/
theorem lookup_expire (r : Redis) (k : String) (ttl : Nat) (e : HashEntry)
    (h : r.live k = some e) :
    (r.expire k ttl).keys.lookup k = some { e with expireAt := some (r.now + ttl) } := by
  simp [Redis.expire, h, List.lookup]

theorem live_hset_self (r : Redis) (k f v : String) :
    ∃ e, (r.hset k f v).live k = some e ∧ e.fields.lookup f = some v := by
  unfold Redis.hset
  cases hl : r.live k with
  | none =>
    exact ⟨⟨[(f, v)], none⟩, by simp [live_cons_self, HashEntry.liveAt], by simp [List.lookup]⟩
  | some e =>
    have hlive := liveAt_of_live r k e hl
    have hlive2 : HashEntry.liveAt { fields := (f, v) :: e.fields, expireAt := e.expireAt } r.now
        = true := hlive
    exact ⟨{ fields := (f, v) :: e.fields, expireAt := e.expireAt },
      by simp [live_cons_self, hlive2], by simp [List.lookup]⟩

theorem hget_expire (r : Redis) (k f v : String) (ttl : Nat) (hpos : 0 < ttl)
    (h : r.hget k f = some v) : (r.expire k ttl).hget k f = some v := by
  unfold Redis.hget at h
  cases hl : r.live k with
  | none => simp [hl] at h
  | some e =>
    simp only [hl] at h
    have hlt : r.now < r.now + ttl := by omega
    simp [Redis.hget, Redis.expire, hl, live_cons_self, HashEntry.liveAt, hlt, h]

/-! ## `GetProductByID` -/

theorem selectByID_ID (pg : Postgres) (id : Int) (p : Product)
    (h : pg.selectByID id = some p) : p.ID = id := by
  unfold Postgres.selectByID at h
  have := List.find?_some h
  simpa using this

theorem GetProductByID_miss_stored (j : Json) (w : World) (id : Int) (p : Product) (s : String)
    (hx : w.faults.hExists = none) (habs : w.rdb.hexists (cacheKey id) "data" = false)
    (hq : w.faults.queryRow = none) (hp : w.pg.selectByID id = some p)
    (hm : j.Marshal p = .ok s) :
    GetProductByID j w id =
      .ret (p, none) (storedWorld w id s) := by
  have hid := selectByID_ID w.pg id p hp
  simp [GetProductByID, existsInRedis, QueryRowScan, saveToCache, HExists, HandleError, Println,
    World.record, missWorld, storedWorld, hx, habs, hq, hp, hm, hid]

theorem GetProductByID_miss_fatal (j : Json) (w : World) (id : Int) (p : Product) (e : GoError)
    (hx : w.faults.hExists = none) (habs : w.rdb.hexists (cacheKey id) "data" = false)
    (hq : w.faults.queryRow = none) (hp : w.pg.selectByID id = some p)
    (hm : j.Marshal p = .error e) :
    GetProductByID j w id = .exit e (missWorld w id) := by
  simp [GetProductByID, existsInRedis, QueryRowScan, saveToCache, HExists, HandleError, Println,
    World.record, missWorld, hx, habs, hq, hp, hm]

theorem hexists_of_hget (r : Redis) (k f s : String) (h : r.hget k f = some s) :
    r.hexists k f = true := by
  unfold Redis.hget at h
  unfold Redis.hexists
  cases hl : r.live k with
  | none => simp [hl] at h
  | some e => simp only [hl] at h; simp [h]

theorem GetProductByID_hit_run (j : Json) (w : World) (id : Int) (s : String) (p : Product)
    (hx : w.faults.hExists = none) (hg : w.faults.hGet = none)
    (hc : w.rdb.hget (cacheKey id) "data" = some s) (hu : j.Unmarshal s = .ok p) :
    GetProductByID j w id = .ret (p, none) (hitWorld w id) := by
  have hex := hexists_of_hget _ _ _ _ hc
  simp [GetProductByID, existsInRedis, fetchFromRedis, HExists, HGet, HandleError, Println,
    World.record, hitWorld, hx, hg, hex, hc, hu]

theorem fetchFromRedis_ret_marshals (j : Json) (w w2 : World) (id : Int) (p : Product)
    (e : Option GoError)
    (hj : ∀ s q, j.Unmarshal s = .ok q → ∃ t, j.Marshal q = .ok t)
    (h : fetchFromRedis j w id = .ret (p, e) w2) : e = none ∧ ∃ t, j.Marshal p = .ok t := by
  unfold fetchFromRedis HGet at h
  cases hg : w.faults.hGet with
  | some err => simp [hg, HandleError] at h
  | none =>
    cases hc : w.rdb.hget (cacheKey id) "data" with
    | none => simp [hg, hc, HandleError] at h
    | some s =>
      cases hu : j.Unmarshal s with
      | error err => simp [hg, hc, hu, HandleError] at h
      | ok q =>
        simp [hg, hc, hu, HandleError] at h
        obtain ⟨⟨hq, he⟩, _⟩ := h
        exact ⟨he.symm, hq ▸ hj s q hu⟩

/-- A product that `GetProductByID` returns with a nil error serializes, when
the codec serializes whatever it deserializes: it came out of `json.Unmarshal`,
or `saveToCache` has serialized it already. -/
theorem GetProductByID_ret_marshals (j : Json) (w w2 : World) (id : Int) (p : Product)
    (hj : ∀ s q, j.Unmarshal s = .ok q → ∃ t, j.Marshal q = .ok t)
    (h : GetProductByID j w id = .ret (p, none) w2) : ∃ t, j.Marshal p = .ok t := by
  unfold GetProductByID existsInRedis HExists at h
  cases hx : w.faults.hExists with
  | some err => simp [hx, HandleError] at h
  | none =>
    cases hex : w.rdb.hexists (cacheKey id) "data" with
    | true =>
      simp [hx, hex, HandleError] at h
      exact (fetchFromRedis_ret_marshals j _ w2 id p none hj h).2
    | false =>
      simp only [hx, hex, HandleError, QueryRowScan] at h
      cases hq : w.faults.queryRow with
      | some err => simp [hq, Println, World.record] at h
      | none =>
        cases hp : w.pg.selectByID id with
        | none => simp [hq, hp, Println, World.record] at h
        | some q =>
          cases hm : j.Marshal q with
          | error err => simp [hq, hp, hm, Println, World.record, saveToCache, HandleError] at h
          | ok t =>
            simp [hq, hp, hm, Println, World.record, saveToCache, HandleError] at h
            exact ⟨t, h.1 ▸ hm⟩

theorem sampleJson_unmarshal_marshals :
    ∀ s q, sampleJson.Unmarshal s = .ok q → ∃ t, sampleJson.Marshal q = .ok t := by
  intro s q h
  by_cases hs : s = widgetJSON
  · simp [sampleJson, hs] at h
    subst h
    exact ⟨widgetJSON, rfl⟩
  · simp [sampleJson, hs] at h

/-- A failure of `HGet` after a positive presence check ends the process. -/
theorem GetProductByID_hget_failure_exits (j : Json) (w : World) (id : Int) (e : GoError)
    (hx : w.faults.hExists = none) (hex : w.rdb.hexists (cacheKey id) "data" = true)
    (hg : w.faults.hGet = some e) :
    (GetProductByID j w id).value = none := by
  simp [GetProductByID, existsInRedis, fetchFromRedis, HExists, HGet, HandleError, Println,
    World.record, hx, hex, hg, Res.value]

/-- A cache entry that does not deserialize ends the process. -/
theorem GetProductByID_unmarshal_failure_exits (j : Json) (w : World) (id : Int) (s : String)
    (e : GoError)
    (hx : w.faults.hExists = none) (hg : w.faults.hGet = none)
    (hc : w.rdb.hget (cacheKey id) "data" = some s) (hu : j.Unmarshal s = .error e) :
    (GetProductByID j w id).value = none := by
  have hex := hexists_of_hget _ _ _ _ hc
  simp [GetProductByID, existsInRedis, fetchFromRedis, HExists, HGet, HandleError, Println,
    World.record, hx, hg, hex, hc, hu, Res.value]

theorem fiveMinutes_pos : 0 < fiveMinutes := by decide

/-- Claim C2: when the presence check finds field `data` under
`cache_products:<id>` and the text held there deserializes to product `p`,
`GetProductByID` returns `p` with a nil error; the only calls made are the
presence check and the `HGet` (no store query, no `HSet`, no `Expire`), and the
cache and the store are left as they were. -/
theorem GetProductByID_cache_hit (j : Json) (w : World) (id : Int) (s : String) (p : Product)
    (hx : w.faults.hExists = none) (hg : w.faults.hGet = none)
    (hc : w.rdb.hget (cacheKey id) "data" = some s) (hu : j.Unmarshal s = .ok p) :
    GetProductByID j w id = .ret (p, none) (hitWorld w id) ∧
      (hitWorld w id).calls = w.calls ++
        [.HExists (cacheKey id) "data", .Println "Product found in cache!",
         .HGet (cacheKey id) "data", .Println "Fetched from Cache!"] ∧
      (GetProductByID j w id).world.rdb = w.rdb ∧
      (GetProductByID j w id).world.pg = w.pg := by
  have hrun := GetProductByID_hit_run j w id s p hx hg hc hu
  exact ⟨hrun, rfl, by rw [hrun]; rfl, by rw [hrun]; rfl⟩

/-- Witness of C2: the sample world with the entry of `widget` in the cache. -/
theorem GetProductByID_cache_hit_witness :
    (GetProductByID sampleJson cachedWorld 1).value = some (widget, none) ∧
      (GetProductByID sampleJson cachedWorld 1).world.rdb = cachedWorld.rdb :=
  have h := GetProductByID_cache_hit sampleJson cachedWorld 1 widgetJSON widget
    (by decide) (by decide) (by decide) rfl
  ⟨by rw [h.1]; rfl, h.2.2.1⟩

/-- Claim C3: when the presence check reports the entry absent and the store
has no row for `id`, `GetProductByID` returns the zero `Product` with
`pgx.ErrNoRows`; it issues no `HSet` and no `Expire`, and the cache is the same
after the call as before. -/
theorem GetProductByID_not_found (j : Json) (w : World) (id : Int)
    (hx : w.faults.hExists = none) (habs : w.rdb.hexists (cacheKey id) "data" = false)
    (hq : w.faults.queryRow = none) (hn : w.pg.selectByID id = none) :
    GetProductByID j w id =
        .ret (Product.zero, some .ErrNoRows)
          { w with calls := w.calls ++
              [.HExists (cacheKey id) "data", .Println "Product not stored in cache",
               .QueryRow id] } ∧
      (GetProductByID j w id).world.rdb = w.rdb := by
  have hrun : GetProductByID j w id =
      .ret (Product.zero, some .ErrNoRows)
        { w with calls := w.calls ++
            [.HExists (cacheKey id) "data", .Println "Product not stored in cache",
             .QueryRow id] } := by
    simp [GetProductByID, existsInRedis, QueryRowScan, HExists, HandleError, Println,
      World.record, hx, habs, hq, hn]
  exact ⟨hrun, by rw [hrun]; rfl⟩

/-- Witness of C3: identifier 999 in the sample world. -/
theorem GetProductByID_not_found_witness :
    (GetProductByID sampleJson sampleWorld 999).value = some (Product.zero, some .ErrNoRows) ∧
      (GetProductByID sampleJson sampleWorld 999).world.rdb = sampleWorld.rdb :=
  have h := GetProductByID_not_found sampleJson sampleWorld 999
    (by decide) (by decide) (by decide) (by decide)
  ⟨by rw [h.1]; rfl, h.2⟩

/-- Claim C1, amended: when the presence check reports the entry absent, the
store returns the row `p` for `id`, `json.Marshal` yields the text `s` for `p`
and the `HSet` command succeeds, `GetProductByID` returns `p` with a nil error
and afterwards the cache holds `s` under `cache_products:<id>`, field `data`. -/
theorem GetProductByID_miss_populates (j : Json) (w : World) (id : Int) (p : Product)
    (s : String)
    (hx : w.faults.hExists = none) (habs : w.rdb.hexists (cacheKey id) "data" = false)
    (hq : w.faults.queryRow = none) (hp : w.pg.selectByID id = some p)
    (hm : j.Marshal p = .ok s) (hs : w.faults.hSet = none) :
    (GetProductByID j w id).value = some (p, none) ∧
      (GetProductByID j w id).world.rdb.hget (cacheKey id) "data" = some s := by
  rw [GetProductByID_miss_stored j w id p s hx habs hq hp hm]
  refine ⟨rfl, ?_⟩
  have hset : (w.rdb.hset (cacheKey id) "data" s).hget (cacheKey id) "data" = some s :=
    hget_hset _ _ _ _
  cases he : w.faults.expire with
  | none =>
    simp [Res.world, storedWorld, Println, Expire, HSet, World.record, missWorld, hs, he]
    exact hget_expire _ _ _ _ _ fiveMinutes_pos hset
  | some e =>
    simp [Res.world, storedWorld, Println, Expire, HSet, World.record, missWorld, hs, he]
    exact hset

/-- Witness of C1 amended: `widget` in the sample world. -/
theorem GetProductByID_miss_populates_witness :
    (GetProductByID sampleJson sampleWorld 1).value = some (widget, none) ∧
      (GetProductByID sampleJson sampleWorld 1).world.rdb.hget (cacheKey 1) "data"
        = some widgetJSON :=
  GetProductByID_miss_populates sampleJson sampleWorld 1 widget widgetJSON
    (by decide) (by decide) (by decide) (by decide) rfl (by decide)

/-- Counterexample to C1 as stated, at two inputs.  In both the product is in
the store and the presence check reports its entry absent without error.
First, `nanProduct` has no JSON serialization: `GetProductByID` does not
return, the process ends.  Second, Redis refuses the `HSET` for `widget`:
`GetProductByID` returns `widget` with a nil error, yet no entry is in the cache
afterwards. -/
theorem GetProductByID_miss_without_entry :
    (sampleWorld.pg.selectByID 2 = some nanProduct ∧
      (HExists sampleWorld (cacheKey 2) "data").1 = false ∧
      (HExists sampleWorld (cacheKey 2) "data").2.1 = none ∧
      (GetProductByID sampleJson sampleWorld 2).value = none ∧
      (GetProductByID sampleJson sampleWorld 2).world.rdb.hget (cacheKey 2) "data" = none) ∧
    (readOnlyCacheWorld.pg.selectByID 1 = some widget ∧
      (HExists readOnlyCacheWorld (cacheKey 1) "data").1 = false ∧
      (HExists readOnlyCacheWorld (cacheKey 1) "data").2.1 = none ∧
      (GetProductByID sampleJson readOnlyCacheWorld 1).value = some (widget, none) ∧
      (GetProductByID sampleJson readOnlyCacheWorld 1).world.rdb.hget (cacheKey 1) "data"
        = none) := by
  decide

/-- Claim C7, amended: after a cache miss and a successful store query for
`p`, a failure of `HSet` or of `Expire` is not propagated (whatever failures are
injected for them, `GetProductByID` returns `p` with a nil error as soon as `p`
serializes); a failure of `json.Marshal` with error `e` ends the process through
`HandleError`, so that `GetProductByID` does not return. -/
theorem GetProductByID_population_failures (j : Json) (w : World) (id : Int) (p : Product)
    (hx : w.faults.hExists = none) (habs : w.rdb.hexists (cacheKey id) "data" = false)
    (hq : w.faults.queryRow = none) (hp : w.pg.selectByID id = some p) :
    (∀ s, j.Marshal p = .ok s → (GetProductByID j w id).value = some (p, none)) ∧
      (∀ e, j.Marshal p = .error e → GetProductByID j w id = .exit e (missWorld w id)) := by
  constructor
  · intro s hm
    rw [GetProductByID_miss_stored j w id p s hx habs hq hp hm]
    rfl
  · intro e hm
    exact GetProductByID_miss_fatal j w id p e hx habs hq hp hm

/-- Witness of C7 amended: the store's `widget` while Redis refuses writes. -/
theorem GetProductByID_population_failures_witness :
    readOnlyCacheWorld.faults.hSet ≠ none ∧
      (GetProductByID sampleJson readOnlyCacheWorld 1).value = some (widget, none) :=
  ⟨by decide,
    (GetProductByID_population_failures sampleJson readOnlyCacheWorld 1 widget
      (by decide) (by decide) (by decide) (by decide)).1 widgetJSON rfl⟩

/-- Counterexample to C7 as stated: `nanProduct` is fetched from the store on a
cache miss, its serialization fails, and `GetProductByID` does not return it:
the process ends. -/
theorem GetProductByID_marshal_failure_exits :
    sampleWorld.pg.selectByID 2 = some nanProduct ∧
      sampleWorld.rdb.hexists (cacheKey 2) "data" = false ∧
      sampleJson.Marshal nanProduct = .error (.other "json: unsupported value") ∧
      (GetProductByID sampleJson sampleWorld 2).value = none ∧
      (GetProductByID sampleJson sampleWorld 2).value ≠ some (nanProduct, none) := by
  refine ⟨by decide, by decide, rfl, by decide, by decide⟩

/-- Claim C8, amended: when the presence check fails with error `e`,
`HandleError` inside `existsInRedis` ends the process with `e`:
`GetProductByID` does not return to its caller, the presence check is the only
call made (the store is not queried), and the handler writes no response. -/
theorem GetProductByID_presence_check_failure (j : Json) (w : World) (id : Int) (e : GoError)
    (hx : w.faults.hExists = some e) :
    GetProductByID j w id = .exit e (w.record (.HExists (cacheKey id) "data")) ∧
      (GetProductByID j w id).value = none ∧
      ∀ path, Atoi (idStr path) = some id →
        w.faults.pgConnect = none →
        getProductByIDHandler j w path =
          .exited e [] ((w.record .Connect).record (.HExists (cacheKey id) "data")) := by
  have hrun : ∀ w2 : World, w2.faults.hExists = some e →
      GetProductByID j w2 id = .exit e (w2.record (.HExists (cacheKey id) "data")) := by
    intro w2 h2
    simp [GetProductByID, existsInRedis, HExists, HandleError, h2]
  refine ⟨hrun w hx, by rw [hrun w hx]; rfl, ?_⟩
  intro path hid hconn
  have h2 : (w.record .Connect).faults.hExists = some e := hx
  simp [getProductByIDHandler, hid, NewDB, Connect, hconn, hrun _ h2]

/-- Witness of C8 amended: the sample world with Redis unreachable. -/
theorem GetProductByID_presence_check_failure_witness :
    (GetProductByID sampleJson cacheDownWorld 1).value = none :=
  (GetProductByID_presence_check_failure sampleJson cacheDownWorld 1
    (.other "dial tcp: connection refused") (by decide)).2.1

/-- Counterexample to C8 as stated: the presence check fails, and
`GetProductByID` returns nothing to its caller, in particular no non-nil
error. -/
theorem GetProductByID_presence_check_no_return :
    (HExists cacheDownWorld (cacheKey 1) "data").2.1
        = some (.other "dial tcp: connection refused") ∧
      (GetProductByID sampleJson cacheDownWorld 1).value = none ∧
      ¬ ∃ p e, (GetProductByID sampleJson cacheDownWorld 1).value = some (p, some e) := by
  refine ⟨by decide, by decide, ?_⟩
  have h : (GetProductByID sampleJson cacheDownWorld 1).value = none := by decide
  rw [h]
  simp

/-! ## Expiry -/

theorem lookup_hset_expire (r : Redis) (k f v : String) (ttl : Nat) :
    ∃ e, ((r.hset k f v).expire k ttl).keys.lookup k = some e ∧
      e.expireAt = some (r.now + ttl) ∧ e.fields.lookup f = some v := by
  obtain ⟨e0, hl, hf⟩ := live_hset_self r k f v
  refine ⟨{ e0 with expireAt := some (r.now + ttl) }, ?_, rfl, hf⟩
  rw [lookup_expire _ _ _ _ hl, hset_now]

theorem hget_before_expiry (r : Redis) (k f : String) (e : HashEntry) (t d : Nat)
    (hl : r.keys.lookup k = some e) (ht : e.expireAt = some t) (hd : r.now + d < t) :
    ({ r with now := r.now + d } : Redis).hget k f = e.fields.lookup f := by
  simp [Redis.hget, Redis.live, hl, HashEntry.liveAt, ht, hd]

theorem hexists_after_expiry (r : Redis) (k f : String) (e : HashEntry) (t d : Nat)
    (hl : r.keys.lookup k = some e) (ht : e.expireAt = some t) (hd : t ≤ r.now + d) :
    ({ r with now := r.now + d } : Redis).hexists k f = false := by
  have hnot : ¬ r.now + d < t := by omega
  simp [Redis.hexists, Redis.live, hl, HashEntry.liveAt, ht, hnot]

theorem storedWorld_rdb (w : World) (id : Int) (s : String)
    (hs : w.faults.hSet = none) (he : w.faults.expire = none) :
    (storedWorld w id s).rdb =
      (w.rdb.hset (cacheKey id) "data" s).expire (cacheKey id) fiveMinutes := by
  simp [storedWorld, Println, Expire, HSet, World.record, missWorld, hs, he]

theorem storedWorld_faults (w : World) (id : Int) (s : String) :
    (storedWorld w id s).faults = w.faults := by
  cases hs : w.faults.hSet <;> cases he : w.faults.expire <;>
    simp [storedWorld, Println, Expire, HSet, World.record, missWorld, hs, he]

theorem storedWorld_pg (w : World) (id : Int) (s : String) :
    (storedWorld w id s).pg = w.pg := by
  cases hs : w.faults.hSet <;> cases he : w.faults.expire <;>
    simp [storedWorld, Println, Expire, HSet, World.record, missWorld, hs, he]

/-- Claim C9, amended.  The cache clock counts nanoseconds, so five minutes
are 300000000000.  When the presence check, the store query, `HGet`, `HSet` and
`Expire` succeed, a store-backed `GetProductByID` (cache miss, row `p` found,
serialized as `s`) calls `Expire` with exactly five minutes and leaves the entry
of `id` holding `s` and expiring exactly five minutes after the time of the
call.  A next call made `d` later, nothing happening in between, is served from
the cache when `d` is under five minutes (it returns what `s` deserializes to
and makes no store query); when `d` is five minutes or more it finds the entry
absent, queries the store again and writes the entry again. -/
theorem GetProductByID_ttl (j : Json) (w : World) (id : Int) (p : Product) (s : String)
    (hx : w.faults.hExists = none) (hq : w.faults.queryRow = none)
    (hg : w.faults.hGet = none) (hs : w.faults.hSet = none) (he : w.faults.expire = none)
    (habs : w.rdb.hexists (cacheKey id) "data" = false)
    (hp : w.pg.selectByID id = some p) (hm : j.Marshal p = .ok s) :
    GetProductByID j w id = .ret (p, none) (storedWorld w id s) ∧
      (storedWorld w id s).calls = w.calls ++
        [.HExists (cacheKey id) "data", .Println "Product not stored in cache",
         .QueryRow id, .Println "Fetched from Postgresql database!",
         .HSet (cacheKey id) "data" s, .Expire (cacheKey id) 300000000000,
         .Println "Stored to cache!"] ∧
      (∃ e, (storedWorld w id s).rdb.keys.lookup (cacheKey id) = some e ∧
        e.expireAt = some (w.rdb.now + 300000000000) ∧ e.fields.lookup "data" = some s) ∧
      (∀ d q, d < 300000000000 → j.Unmarshal s = .ok q →
        GetProductByID j ((storedWorld w id s).advance d) id =
          .ret (q, none) (hitWorld ((storedWorld w id s).advance d) id)) ∧
      (∀ d, 300000000000 ≤ d →
        ((storedWorld w id s).advance d).rdb.hexists (cacheKey id) "data" = false ∧
        GetProductByID j ((storedWorld w id s).advance d) id =
          .ret (p, none) (storedWorld ((storedWorld w id s).advance d) id s) ∧
        (storedWorld ((storedWorld w id s).advance d) id s).rdb.hget (cacheKey id) "data"
          = some s) := by
  have h5 : (300000000000 : Nat) = fiveMinutes := by decide
  rw [h5]
  have hrdb := storedWorld_rdb w id s hs he
  obtain ⟨e, hl, ht, hfld⟩ := lookup_hset_expire w.rdb (cacheKey id) "data" s fiveMinutes
  rw [← hrdb] at hl
  have hnow : (storedWorld w id s).rdb.now = w.rdb.now := by
    rw [hrdb, expire_now, hset_now]
  have hfa : ∀ d, ((storedWorld w id s).advance d).faults = w.faults := fun d =>
    storedWorld_faults w id s
  have hpg : ∀ d, ((storedWorld w id s).advance d).pg = w.pg := fun d =>
    storedWorld_pg w id s
  have hcalls : (storedWorld w id s).calls = w.calls ++
      [.HExists (cacheKey id) "data", .Println "Product not stored in cache",
       .QueryRow id, .Println "Fetched from Postgresql database!",
       .HSet (cacheKey id) "data" s, .Expire (cacheKey id) fiveMinutes,
       .Println "Stored to cache!"] := by
    simp [storedWorld, Println, Expire, HSet, World.record, missWorld, hs, he]
  refine ⟨GetProductByID_miss_stored j w id p s hx habs hq hp hm, hcalls,
    ⟨e, hl, ht, hfld⟩, ?_, ?_⟩
  · intro d q hd hu
    have hget : ((storedWorld w id s).advance d).rdb.hget (cacheKey id) "data" = some s := by
      have := hget_before_expiry (storedWorld w id s).rdb (cacheKey id) "data" e
        (w.rdb.now + fiveMinutes) d hl ht (by omega)
      rw [← hfld]
      exact this
    exact GetProductByID_hit_run j _ id s q (by rw [hfa, hx]) (by rw [hfa, hg]) hget hu
  · intro d hd
    have hex : ((storedWorld w id s).advance d).rdb.hexists (cacheKey id) "data" = false :=
      hexists_after_expiry (storedWorld w id s).rdb (cacheKey id) "data" e
        (w.rdb.now + fiveMinutes) d hl ht (by omega)
    refine ⟨hex, ?_, ?_⟩
    · exact GetProductByID_miss_stored j _ id p s (by rw [hfa, hx]) hex (by rw [hfa, hq])
        (by rw [hpg]; exact hp) hm
    · rw [storedWorld_rdb _ id s (by rw [hfa, hs]) (by rw [hfa, he])]
      exact hget_expire _ _ _ _ _ fiveMinutes_pos (hget_hset _ _ _ _)

/-- Witness of C9 amended: `widget` in the sample world, then a call one
nanosecond before the five minutes are over and a call exactly five minutes
later. -/
theorem GetProductByID_ttl_witness :
    (GetProductByID sampleJson
        ((storedWorld sampleWorld 1 widgetJSON).advance 299999999999) 1).value
        = some (widget, none) ∧
      ((storedWorld sampleWorld 1 widgetJSON).advance 300000000000).rdb.hexists
        (cacheKey 1) "data" = false ∧
      (GetProductByID sampleJson
        ((storedWorld sampleWorld 1 widgetJSON).advance 300000000000) 1).world.calls
        = (storedWorld sampleWorld 1 widgetJSON).calls ++
          [.HExists "cache_products:1" "data", .Println "Product not stored in cache",
           .QueryRow 1, .Println "Fetched from Postgresql database!",
           .HSet "cache_products:1" "data" widgetJSON,
           .Expire "cache_products:1" 300000000000, .Println "Stored to cache!"] :=
  have h := GetProductByID_ttl sampleJson sampleWorld 1 widget widgetJSON
    (by decide) (by decide) (by decide) (by decide) (by decide) (by decide) (by decide) rfl
  ⟨by rw [h.2.2.2.1 299999999999 widget (by decide) rfl]; rfl,
    (h.2.2.2.2 300000000000 (le_refl _)).1,
    by rw [(h.2.2.2.2 300000000000 (le_refl _)).2.1]; decide⟩

/-- Counterexample to C9 as stated: `widget` is fetched from the store on a
cache miss, `HSET` succeeds and the `EXPIRE` that follows fails, its result
dropped.  The entry is written without any time-to-live, and a call five
minutes later, as one ten times later, is served from the cache: the presence
check and `HGet` are its only calls, the store is not queried again. -/
theorem GetProductByID_entry_without_ttl :
    expireFailsWorld.pg.selectByID 1 = some widget ∧
      (HExists expireFailsWorld (cacheKey 1) "data").1 = false ∧
      (HExists expireFailsWorld (cacheKey 1) "data").2.1 = none ∧
      (GetProductByID sampleJson expireFailsWorld 1).value = some (widget, none) ∧
      (GetProductByID sampleJson expireFailsWorld 1).world.rdb.keys.lookup (cacheKey 1)
        = some ⟨[("data", widgetJSON)], none⟩ ∧
      (GetProductByID sampleJson
        ((GetProductByID sampleJson expireFailsWorld 1).world.advance 300000000000) 1).value
        = some (widget, none) ∧
      (GetProductByID sampleJson
        ((GetProductByID sampleJson expireFailsWorld 1).world.advance 300000000000) 1).world.calls
        = (GetProductByID sampleJson expireFailsWorld 1).world.calls ++
          [.HExists "cache_products:1" "data", .Println "Product found in cache!",
           .HGet "cache_products:1" "data", .Println "Fetched from Cache!"] ∧
      (GetProductByID sampleJson
        ((GetProductByID sampleJson expireFailsWorld 1).world.advance 3000000000000) 1).value
        = some (widget, none) := by
  decide

/-! ## The handler -/

/-- Claim C4, amended: the handler answers 400 when the path suffix does not
parse as an integer.  Otherwise, the connection obtained: when the lookup
returns an error it answers 404 for `pgx.ErrNoRows` and 500 for any other
error; when the lookup returns a product it answers 500 if `json.Marshal`
fails and otherwise, the write succeeding, 200 with the JSON text as body; and
when the lookup ends the process (`HandleError` on a failure of the presence
check, of `HGet`, of deserialization or of the serialization for the cache) no
response is written. -/
theorem getProductByIDHandler_status (j : Json) (w : World) (path : String) :
    (Atoi (idStr path) = none →
      getProductByIDHandler j w path = .returned [.Error "Invalid product ID" 400] w ∧
      statusOf (getProductByIDHandler j w path).resp = some 400) ∧
    (∀ id, Atoi (idStr path) = some id → w.faults.pgConnect = none →
      (∀ p w2, GetProductByID j (w.record .Connect) id = .ret (p, some .ErrNoRows) w2 →
        getProductByIDHandler j w path = .returned [.Error "Product not found" 404] w2 ∧
        statusOf (getProductByIDHandler j w path).resp = some 404) ∧
      (∀ p e w2, GetProductByID j (w.record .Connect) id = .ret (p, some e) w2 →
        e ≠ .ErrNoRows →
        getProductByIDHandler j w path
          = .returned [.Error "Failed to retrieve product" 500] w2 ∧
        statusOf (getProductByIDHandler j w path).resp = some 500) ∧
      (∀ p e w2, GetProductByID j (w.record .Connect) id = .ret (p, none) w2 →
        j.Marshal p = .error e →
        statusOf (getProductByIDHandler j w path).resp = some 500) ∧
      (∀ p s w2, GetProductByID j (w.record .Connect) id = .ret (p, none) w2 →
        j.Marshal p = .ok s → w2.faults.respWrite = none →
        getProductByIDHandler j w path
          = .returned [.SetHeader "Content-Type" "application/json", .Write s] w2 ∧
        statusOf (getProductByIDHandler j w path).resp = some 200 ∧
        bodyOf (getProductByIDHandler j w path).resp = s) ∧
      (∀ e w2, GetProductByID j (w.record .Connect) id = .exit e w2 →
        getProductByIDHandler j w path = .exited e [] w2 ∧
        statusOf (getProductByIDHandler j w path).resp = none)) := by
  constructor
  · intro hparse
    have hrun : getProductByIDHandler j w path
        = .returned [.Error "Invalid product ID" 400] w := by
      simp [getProductByIDHandler, hparse]
    exact ⟨hrun, by rw [hrun]; rfl⟩
  · intro id hparse hconn
    refine ⟨?_, ?_, ?_, ?_, ?_⟩
    · intro p w2 hget
      have hrun : getProductByIDHandler j w path
          = .returned [.Error "Product not found" 404] w2 := by
        simp [getProductByIDHandler, hparse, NewDB, Connect, hconn, hget]
      exact ⟨hrun, by rw [hrun]; rfl⟩
    · intro p e w2 hget hne
      have hrun : getProductByIDHandler j w path
          = .returned [.Error "Failed to retrieve product" 500] w2 := by
        simp [getProductByIDHandler, hparse, NewDB, Connect, hconn, hget, hne]
      exact ⟨hrun, by rw [hrun]; rfl⟩
    · intro p e w2 hget hm
      cases hw : w2.faults.respWrite <;>
        simp [getProductByIDHandler, hparse, NewDB, Connect, hconn, hget, hm, hw, Served.resp,
          statusOf]
    · intro p s w2 hget hm hw
      have hrun : getProductByIDHandler j w path
          = .returned [.SetHeader "Content-Type" "application/json", .Write s] w2 := by
        simp [getProductByIDHandler, hparse, NewDB, Connect, hconn, hget, hm, hw]
      refine ⟨hrun, by rw [hrun]; rfl, ?_⟩
      rw [hrun]
      simp [Served.resp, bodyOf]
    · intro e w2 hget
      have hrun : getProductByIDHandler j w path = .exited e [] w2 := by
        simp [getProductByIDHandler, hparse, NewDB, Connect, hconn, hget]
      exact ⟨hrun, by rw [hrun]; rfl⟩

/-- Witness of C4 amended: the three requests of the scenario. -/
theorem getProductByIDHandler_status_witness :
    statusOf (getProductByIDHandler sampleJson sampleWorld "/product/abc").resp = some 400 ∧
      statusOf (getProductByIDHandler sampleJson sampleWorld "/product/999").resp = some 404 ∧
      statusOf (getProductByIDHandler sampleJson sampleWorld "/product/1").resp = some 200 ∧
      bodyOf (getProductByIDHandler sampleJson sampleWorld "/product/1").resp = widgetJSON :=
  have h1 := ((getProductByIDHandler_status sampleJson sampleWorld "/product/1").2 1
    (by decide) (by decide)).2.2.2.1 widget widgetJSON
      (storedWorld (sampleWorld.record .Connect) 1 widgetJSON) (by rfl) rfl (by decide)
  ⟨((getProductByIDHandler_status sampleJson sampleWorld "/product/abc").1 (by decide)).2,
    (((getProductByIDHandler_status sampleJson sampleWorld "/product/999").2 999
      (by decide) (by decide)).1 Product.zero
      (GetProductByID sampleJson (sampleWorld.record .Connect) 999).world (by rfl)).2,
    h1.2.1, h1.2.2⟩

/-- Counterexample to C4 as stated: the identifier parses and the lookup fails
on a cache entry that does not deserialize; the answer is not 500, no response
is written at all and the process ends. -/
theorem getProductByIDHandler_cache_failure_no_response :
    Atoi (idStr "/product/1") = some 1 ∧
      (GetProductByID sampleJson (corruptCacheWorld.record .Connect) 1).value = none ∧
      (getProductByIDHandler sampleJson corruptCacheWorld "/product/1").returnedNormally
        = false ∧
      statusOf (getProductByIDHandler sampleJson corruptCacheWorld "/product/1").resp = none ∧
      statusOf (getProductByIDHandler sampleJson corruptCacheWorld "/product/1").resp
        ≠ some 500 := by
  decide

/-- Claim C5: under a codec that serializes whatever it deserializes (as
`encoding/json` does at `Product`), for every request and world, that is for
every outcome of parsing the identifier and of the lookup, a run of the
handler that returns normally has made exactly one response write, `http.Error`
or `w.Write` and not both. -/
theorem getProductByIDHandler_one_write (j : Json) (w : World) (path : String)
    (hj : ∀ s q, j.Unmarshal s = .ok q → ∃ t, j.Marshal q = .ok t)
    (hret : (getProductByIDHandler j w path).returnedNormally = true) :
    writeCount (getProductByIDHandler j w path).resp = 1 := by
  unfold getProductByIDHandler at hret ⊢
  cases hparse : Atoi (idStr path) with
  | none => simp [Served.resp, writeCount]
  | some id =>
    cases hconn : w.faults.pgConnect with
    | some e => simp [hparse, hconn, NewDB, Connect, Served.returnedNormally] at hret
    | none =>
      simp only [hparse, hconn, NewDB, Connect] at hret ⊢
      cases hget : GetProductByID j (w.record .Connect) id with
      | exit e w2 => simp [hget, Served.returnedNormally] at hret
      | ret a w2 =>
        obtain ⟨p, err⟩ := a
        cases err with
        | some e =>
          by_cases he : e = .ErrNoRows <;> simp [he, Served.resp, writeCount]
        | none =>
          obtain ⟨t, hm⟩ := GetProductByID_ret_marshals j _ w2 id p hj hget
          cases hw : w2.faults.respWrite with
          | some e => simp [hget, hm, hw, Served.returnedNormally] at hret
          | none => simp [hm, hw, Served.resp, writeCount]

/-- Witness of C5: the three requests of the scenario and a cache hit, under
the sample codec. -/
theorem getProductByIDHandler_one_write_witness :
    writeCount (getProductByIDHandler sampleJson sampleWorld "/product/abc").resp = 1 ∧
      writeCount (getProductByIDHandler sampleJson sampleWorld "/product/999").resp = 1 ∧
      writeCount (getProductByIDHandler sampleJson sampleWorld "/product/1").resp = 1 ∧
      writeCount (getProductByIDHandler sampleJson cachedWorld "/product/1").resp = 1 :=
  ⟨getProductByIDHandler_one_write sampleJson sampleWorld "/product/abc"
      sampleJson_unmarshal_marshals (by decide),
    getProductByIDHandler_one_write sampleJson sampleWorld "/product/999"
      sampleJson_unmarshal_marshals (by decide),
    getProductByIDHandler_one_write sampleJson sampleWorld "/product/1"
      sampleJson_unmarshal_marshals (by decide),
    getProductByIDHandler_one_write sampleJson cachedWorld "/product/1"
      sampleJson_unmarshal_marshals (by decide)⟩

/-! ## The write paths -/

/-- Claim C6, at the failing inputs: when the statement fails inside the
transaction, `CreateProduct` and `UpdateProduct` return the outcome of the
rollback, nil when the rollback succeeds and the rollback's error when it
fails, and not the error of the statement. -/
theorem CreateProduct_UpdateProduct_return_rollback_outcome :
    (CreateProduct execFailsWorld widget).value = some none ∧
      (UpdateProduct execFailsWorld widget).value = some none ∧
      (CreateProduct rollbackFailsWorld widget).value = some (some (.other "conn closed")) ∧
      (UpdateProduct rollbackFailsWorld widget).value = some (some (.other "conn closed")) ∧
      (CreateProduct execFailsWorld widget).world.calls
        = [.Begin, .Exec "INSERT INTO products (name, description, price) VALUES ($1, $2, $3)",
           .Rollback] := by
  decide

/-! ## Cache keys -/

theorem hget_of_live_eq (r1 r2 : Redis) (k f : String) (h : r1.live k = r2.live k) :
    r1.hget k f = r2.hget k f := by
  unfold Redis.hget
  rw [h]

/-- Claim C10: the cache key is injective on integers, and writing the entry of
one product (`saveToCache`, whatever the outcome of its commands) leaves the
entry read under the key of any other identifier as it was. -/
theorem cacheKey_separates_ids :
    Function.Injective cacheKey ∧
      ∀ (j : Json) (w : World) (p : Product) (b : Int), p.ID ≠ b →
        cacheKey p.ID ≠ cacheKey b ∧
        (saveToCache j w p).world.rdb.hget (cacheKey b) "data"
          = w.rdb.hget (cacheKey b) "data" := by
  refine ⟨cacheKey_injective, ?_⟩
  intro j w p b hne
  have hk : cacheKey b ≠ cacheKey p.ID := fun h => hne (cacheKey_injective h).symm
  refine ⟨fun h => hk h.symm, ?_⟩
  apply hget_of_live_eq
  cases hm : j.Marshal p with
  | error e => simp [saveToCache, hm, HandleError, Res.world]
  | ok s =>
    cases hs : w.faults.hSet <;> cases he : w.faults.expire <;>
      simp [saveToCache, hm, HandleError, Res.world, Println, Expire, HSet, World.record, hs, he,
        live_hset_other _ _ _ _ _ hk, live_expire_other _ _ _ _ hk]

/-- Witness of C10: storing `widget` leaves the entry of identifier 2 absent. -/
theorem cacheKey_separates_ids_witness :
    cacheKey 1 ≠ cacheKey 2 ∧
      (saveToCache sampleJson sampleWorld widget).world.rdb.hget (cacheKey 2) "data" = none :=
  have h := cacheKey_separates_ids.2 sampleJson sampleWorld widget 2 (by decide)
  ⟨h.1, h.2.trans (by decide)⟩

end ProductApi
